import Mathlib

/-!
Verification of the learning-rate decay schedule helpers of
`python/paddle/v2/fluid/learning_rate_decay.py` and of the parameter unit
test `python/paddle/v2/fluid/tests/unittests/test_parameter.py`.

The decay builders construct graph expressions over float scalars; we embed
the value each constructed expression computes as a real-valued function of
the scalar inputs (real division is Mathlib's total division, `x / 0 = 0`;
`**` on floats is `Real.rpow`; `layers.floor` / `layers.ceil` are `Int.floor`
/ `Int.ceil` cast back to `ℝ`; `layers.exp` is `Real.exp`).  The piecewise
schedule only compares and copies scalars, so it is embedded over `ℚ` to stay
decidable.  The `isinstance(global_step, Variable)` validation is embedded by
an argument type `StepArg` (a framework `Variable` carrying its scalar value,
or any non-`Variable` Python object) and `Except`-returning wrappers.  Graph
construction side effects (which variables each builder creates) are embedded
by explicit state passing over a `GraphState`.
-/

namespace Paddle

/-- The `global_step` argument of each decay function as a Python value:
either a framework `Variable` (carrying the scalar value it holds at
execution time) or any non-`Variable` object. -/
inductive StepArg (α : Type) where
  | var (val : α)
  | notVar

/-- Embedding of `exponential_decay` (learning_rate_decay.py lines 58-65):
`div_res = global_step / decay_steps`, floored when `staircase`, then
`decayed_lr = learning_rate * (decay_rate ** div_res)`. -/
noncomputable def exponential_decay (learning_rate global_step decay_steps
    decay_rate : ℝ) (staircase : Bool) : ℝ :=
  let div_res := global_step / decay_steps
  let div_res := if staircase then ((⌊div_res⌋ : ℤ) : ℝ) else div_res
  learning_rate * decay_rate ^ div_res

/-- Embedding of `natural_exp_decay` (lines 95-101):
`decayed_lr = learning_rate * layers.exp(x=(-1 * decay_rate * div_res))`. -/
noncomputable def natural_exp_decay (learning_rate global_step decay_steps
    decay_rate : ℝ) (staircase : Bool) : ℝ :=
  let div_res := global_step / decay_steps
  let div_res := if staircase then ((⌊div_res⌋ : ℤ) : ℝ) else div_res
  learning_rate * Real.exp (-1 * decay_rate * div_res)

/-- Embedding of `inverse_time_decay` (lines 131-138):
`decayed_lr = learning_rate / (1 + decay_rate * div_res)`. -/
noncomputable def inverse_time_decay (learning_rate global_step decay_steps
    decay_rate : ℝ) (staircase : Bool) : ℝ :=
  let div_res := global_step / decay_steps
  let div_res := if staircase then ((⌊div_res⌋ : ℤ) : ℝ) else div_res
  learning_rate / (1 + decay_rate * div_res)

/-- The multiplier `div_res` used by `polynomial_decay` when `cycle=True`
(lines 174-183): `div_res = layers.ceil(x=(global_step / decay_steps))`,
then the switch `with switch.case(global_step == zero_var)` overwrites it
with `one_var` exactly when the step is zero. -/
noncomputable def polynomial_decay_div_res (global_step decay_steps : ℝ) : ℝ :=
  let div_res := ((⌈global_step / decay_steps⌉ : ℤ) : ℝ)
  if global_step = 0 then 1 else div_res

/-- Embedding of `polynomial_decay` (lines 173-193).  With `cycle` the
divisor becomes `decay_steps * div_res`; otherwise `global_step` is clamped
by `layers.elementwise_min` to `decay_steps`.  Then
`decayed_lr = (learning_rate - end_learning_rate) *
((1 - global_step / decay_steps) ** power) + end_learning_rate`. -/
noncomputable def polynomial_decay (learning_rate global_step decay_steps
    end_learning_rate power : ℝ) (cycle : Bool) : ℝ :=
  if cycle then
    let div_res := polynomial_decay_div_res global_step decay_steps
    let decay_steps := decay_steps * div_res
    (learning_rate - end_learning_rate) *
      ((1 - global_step / decay_steps) ^ power) + end_learning_rate
  else
    let global_step := min global_step decay_steps
    (learning_rate - end_learning_rate) *
      ((1 - global_step / decay_steps) ^ power) + end_learning_rate

/-- The staircase=False body of `exponential_decay` as a function of the
exponent term (spec side, for the staircase claim). -/
noncomputable def exponential_decay_body (learning_rate decay_rate d : ℝ) : ℝ :=
  learning_rate * decay_rate ^ d

/-- The staircase=False body of `natural_exp_decay` as a function of the
exponent term (spec side, for the staircase claim). -/
noncomputable def natural_exp_decay_body (learning_rate decay_rate d : ℝ) : ℝ :=
  learning_rate * Real.exp (-1 * decay_rate * d)

/-- The staircase=False body of `inverse_time_decay` as a function of the
quotient term (spec side, for the staircase claim). -/
noncomputable def inverse_time_decay_body (learning_rate decay_rate d : ℝ) : ℝ :=
  learning_rate / (1 + decay_rate * d)

/-- The polynomial decay formula as the spec states it: with `cycle=False`
the step is `min global_step decay_steps`; with `cycle=True` the divisor is
`decay_steps * ceil(global_step / decay_steps)`. -/
noncomputable def polynomial_decay_spec_formula (learning_rate global_step
    decay_steps end_learning_rate power : ℝ) (cycle : Bool) : ℝ :=
  if cycle then
    (learning_rate - end_learning_rate) *
      ((1 - global_step /
        (decay_steps * ((⌈global_step / decay_steps⌉ : ℤ) : ℝ))) ^ power) +
      end_learning_rate
  else
    (learning_rate - end_learning_rate) *
      ((1 - min global_step decay_steps / decay_steps) ^ power) +
      end_learning_rate

/-- Validated entry point of `exponential_decay` (lines 55-56): raises
`ValueError` unless `global_step` is a `Variable`. -/
noncomputable def exponential_decay_checked (learning_rate : ℝ)
    (global_step : StepArg ℝ) (decay_steps decay_rate : ℝ)
    (staircase : Bool) : Except String ℝ :=
  match global_step with
  | .notVar => .error "global_step is required for exponential_decay."
  | .var s => .ok (exponential_decay learning_rate s decay_steps decay_rate
      staircase)

/-- Validated entry point of `natural_exp_decay` (lines 92-93). -/
noncomputable def natural_exp_decay_checked (learning_rate : ℝ)
    (global_step : StepArg ℝ) (decay_steps decay_rate : ℝ)
    (staircase : Bool) : Except String ℝ :=
  match global_step with
  | .notVar => .error "global_step is required for natural_exp_decay."
  | .var s => .ok (natural_exp_decay learning_rate s decay_steps decay_rate
      staircase)

/-- Validated entry point of `inverse_time_decay` (lines 128-129). -/
noncomputable def inverse_time_decay_checked (learning_rate : ℝ)
    (global_step : StepArg ℝ) (decay_steps decay_rate : ℝ)
    (staircase : Bool) : Except String ℝ :=
  match global_step with
  | .notVar => .error "global_step is required for inverse_time_decay."
  | .var s => .ok (inverse_time_decay learning_rate s decay_steps decay_rate
      staircase)

/-- Validated entry point of `polynomial_decay` (lines 170-171; the message
names `inverse_time_decay`, faithfully to the source). -/
noncomputable def polynomial_decay_checked (learning_rate : ℝ)
    (global_step : StepArg ℝ) (decay_steps end_learning_rate power : ℝ)
    (cycle : Bool) : Except String ℝ :=
  match global_step with
  | .notVar => .error "global_step is required for inverse_time_decay."
  | .var s => .ok (polynomial_decay learning_rate s decay_steps
      end_learning_rate power cycle)

/-- The divisors of the divisions performed by `exponential_decay`
(line 60: `global_step / decay_steps`). -/
def exponential_decay_divisors (decay_steps : ℝ) : List ℝ := [decay_steps]

/-- The divisors of the divisions performed by `natural_exp_decay`
(line 96: `global_step / decay_steps`). -/
def natural_exp_decay_divisors (decay_steps : ℝ) : List ℝ := [decay_steps]

/-- The divisors of the divisions performed by `inverse_time_decay`
(line 132: `global_step / decay_steps`; line 136:
`learning_rate / (1 + decay_rate * div_res)`). -/
noncomputable def inverse_time_decay_divisors (global_step decay_steps
    decay_rate : ℝ) (staircase : Bool) : List ℝ :=
  [decay_steps,
    1 + decay_rate * (if staircase
      then ((⌊global_step / decay_steps⌋ : ℤ) : ℝ)
      else global_step / decay_steps)]

/-- The divisors of the divisions performed by `polynomial_decay`
(line 175: `global_step / decay_steps` inside `layers.ceil`; line 192:
division by the scaled `decay_steps * div_res` when `cycle`, by the plain
`decay_steps` otherwise, where the step was clamped). -/
noncomputable def polynomial_decay_divisors (global_step decay_steps : ℝ)
    (cycle : Bool) : List ℝ :=
  if cycle then
    [decay_steps, decay_steps * polynomial_decay_div_res global_step decay_steps]
  else
    [decay_steps]

/-- Semantics of the fluid `Switch` block built by `piecewise_decay`
(lines 226-239): conditions are tested in program order, the first true
`case` assigns its value, and when no case fires the `default` branch
assigns the default value.  Each list entry pairs a case's boundary with
the value its `layers.assign` writes. -/
def switch_select (s : ℚ) : List (ℚ × ℚ) → ℚ → ℚ
  | [], dflt => dflt
  | (bv, vv) :: rest, dflt =>
    if s < bv then vv else switch_select s rest dflt

/-- The index of the switch branch `piecewise_decay` executes: the first
`i` with `global_step < boundaries[i]`, or `boundaries.length` when no
case fires (the `default` branch). -/
def firstIdx (s : ℚ) : List ℚ → ℕ
  | [] => 0
  | b :: rest => if s < b then 0 else firstIdx s rest + 1

/-- Embedding of `piecewise_decay` (lines 218-241): the loop pairs
`boundaries[i]` with `values[i]` as the switch's cases, and the `default`
branch assigns `values[len(values) - 1]`. -/
def piecewise_decay (global_step : ℚ) (boundaries values : List ℚ) : ℚ :=
  switch_select global_step (boundaries.zip values) (values.getLastD 0)

/-- Validated entry point of `piecewise_decay` (lines 212-216): Python's
`len(values) - len(boundaries) != 1` over `int` is the `ℤ` subtraction. -/
def piecewise_decay_checked (global_step : StepArg ℚ)
    (boundaries values : List ℚ) : Except String ℚ :=
  if (values.length : ℤ) - boundaries.length ≠ 1 then
    .error "len(values) - len(boundaries) should be 1"
  else
    match global_step with
    | .notVar => .error "global_step is required for piecewise_decay."
    | .var s => .ok (piecewise_decay s boundaries values)

/-- True exactly on results that model a raised `ValueError`. -/
def isValueError {ε α : Type} : Except ε α → Bool
  | .error _ => true
  | .ok _ => false

/-- Name of a graph variable: layer outputs get framework-generated unique
names (embedded as a counter), `create_global_var` takes an explicit name. -/
inductive VarName where
  | auto (k : ℕ)
  | named (s : String)
  deriving DecidableEq

/-- A variable created in the graph, with its persistability. -/
structure GVar where
  name : VarName
  persistable : Bool
  deriving DecidableEq

/-- Graph-construction state: the unique-name counter and the variables
created so far, in creation order. -/
structure GraphState where
  nextId : ℕ
  vars : List GVar
  deriving DecidableEq

/-- A layer call: appends one auto-named, non-persistable output variable. -/
def emitTmp (g : GraphState) : GraphState × VarName :=
  (⟨g.nextId + 1, g.vars ++ [⟨VarName.auto g.nextId, false⟩]⟩,
    VarName.auto g.nextId)

/-- `layers.create_global_var`: appends a variable with an explicit name
and persistability. -/
def emitGlobalVar (nm : String) (persist : Bool) (g : GraphState) :
    GraphState × VarName :=
  (⟨g.nextId, g.vars ++ [⟨VarName.named nm, persist⟩]⟩, VarName.named nm)

/-- Graph effects of `exponential_decay` (lines 58-65): one layer output
for the division, one for `layers.floor` when `staircase`, one for the
power, one for the final product; the last is returned. -/
def exponential_decay_build (staircase : Bool) (g : GraphState) :
    GraphState × VarName :=
  let p1 := emitTmp g
  let p2 := if staircase then emitTmp p1.1 else p1
  let p3 := emitTmp p2.1
  let p4 := emitTmp p3.1
  (p4.1, p4.2)

/-- Graph effects of `natural_exp_decay` (lines 95-101): division, optional
floor, the scaled exponent, `layers.exp`, final product. -/
def natural_exp_decay_build (staircase : Bool) (g : GraphState) :
    GraphState × VarName :=
  let p1 := emitTmp g
  let p2 := if staircase then emitTmp p1.1 else p1
  let p3 := emitTmp p2.1
  let p4 := emitTmp p3.1
  let p5 := emitTmp p4.1
  (p5.1, p5.2)

/-- Graph effects of `inverse_time_decay` (lines 131-138): division,
optional floor, `decay_rate * div_res`, `1 + ...`, final quotient. -/
def inverse_time_decay_build (staircase : Bool) (g : GraphState) :
    GraphState × VarName :=
  let p1 := emitTmp g
  let p2 := if staircase then emitTmp p1.1 else p1
  let p3 := emitTmp p2.1
  let p4 := emitTmp p3.1
  let p5 := emitTmp p4.1
  (p5.1, p5.2)

/-- Graph effects of `polynomial_decay` (lines 173-193).  With `cycle`:
division, `layers.ceil`, the two `fill_constant`s, the switch condition
(`layers.assign` writes into `div_res` and creates nothing), the scaled
`decay_steps * div_res`, then the five layer outputs of the `decayed_lr`
expression.  Without `cycle`: the `fill_constant`, `elementwise_min`, then
the five outputs of the `decayed_lr` expression. -/
def polynomial_decay_build (cycle : Bool) (g : GraphState) :
    GraphState × VarName :=
  if cycle then
    let p1 := emitTmp g
    let p2 := emitTmp p1.1
    let p3 := emitTmp p2.1
    let p4 := emitTmp p3.1
    let p5 := emitTmp p4.1
    let p6 := emitTmp p5.1
    let p7 := emitTmp p6.1
    let p8 := emitTmp p7.1
    let p9 := emitTmp p8.1
    let p10 := emitTmp p9.1
    let p11 := emitTmp p10.1
    (p11.1, p11.2)
  else
    let p1 := emitTmp g
    let p2 := emitTmp p1.1
    let p3 := emitTmp p2.1
    let p4 := emitTmp p3.1
    let p5 := emitTmp p4.1
    let p6 := emitTmp p5.1
    let p7 := emitTmp p6.1
    (p7.1, p7.2)

/-- Graph effects of the case loop of `piecewise_decay` (lines 227-233):
per boundary, two `fill_constant`s and the `less_than` condition
(`layers.assign` creates nothing). -/
def piecewise_cases_build : ℕ → GraphState → GraphState
  | 0, g => g
  | k + 1, g =>
    let p1 := emitTmp g
    let p2 := emitTmp p1.1
    let p3 := emitTmp p2.1
    piecewise_cases_build k p3.1

/-- Graph effects of `piecewise_decay` (lines 218-241): the persistable
global variable `learning_rate` (which is returned), the case loop, and
the `fill_constant` for the last value. -/
def piecewise_decay_build (nb : ℕ) (g : GraphState) : GraphState × VarName :=
  let p0 := emitGlobalVar "learning_rate" true g
  let g1 := piecewise_cases_build nb p0.1
  let p2 := emitTmp g1
  (p2.1, p0.2)

/-- The run of `k` auto-named non-persistable variables starting at id
`id`. -/
def tmpRun : ℕ → ℕ → List GVar
  | _, 0 => []
  | id, k + 1 => ⟨VarName.auto id, false⟩ :: tmpRun (id + 1) k

/-- The variables `exponential_decay` appends to the graph. -/
def exponential_decay_newvars (staircase : Bool) (id : ℕ) : List GVar :=
  tmpRun id (if staircase then 4 else 3)

/-- The variables `natural_exp_decay` appends to the graph. -/
def natural_exp_decay_newvars (staircase : Bool) (id : ℕ) : List GVar :=
  tmpRun id (if staircase then 5 else 4)

/-- The variables `inverse_time_decay` appends to the graph. -/
def inverse_time_decay_newvars (staircase : Bool) (id : ℕ) : List GVar :=
  tmpRun id (if staircase then 5 else 4)

/-- The variables `polynomial_decay` appends to the graph. -/
def polynomial_decay_newvars (cycle : Bool) (id : ℕ) : List GVar :=
  tmpRun id (if cycle then 11 else 7)

/-- The variables `piecewise_decay` appends to the graph. -/
def piecewise_decay_newvars (nb : ℕ) (id : ℕ) : List GVar :=
  ⟨VarName.named "learning_rate", true⟩ :: tmpRun id (3 * nb + 1)

/-- Modelled from the spec: the variable dtypes of `core.VarDesc.VarType`
used by the parameter test; the framework core is not part of this
excerpt. -/
inductive VarType where
  | FP32
  | FP64
  deriving DecidableEq

/-- Modelled from the spec: a parameter of the computation-graph engine,
as the test observes it: its name, shape, dtype, the index of the block
holding it, and the constant its initializer fills it with (floats are
embedded as `ℚ`; the test's 1.0625 is exactly 17/16). -/
structure Parameter where
  name : String
  shape : List ℕ
  dtype : VarType
  blockIdx : ℕ
  initVal : ℚ
  deriving DecidableEq

/-- Modelled from the spec: `ConstantInitializer(value)` initializes every
entry of the parameter to `value`. -/
structure ConstantInitializer where
  value : ℚ

/-- Modelled from the spec: `Block.create_parameter` on the program's
global block (block index 0) registers and returns a parameter with the
given name, shape, dtype and initializer; the framework's `framework.py`
is not part of this excerpt. -/
def create_parameter (nm : String) (shape : List ℕ) (dtype : VarType)
    (ini : ConstantInitializer) : Option Parameter :=
  some ⟨nm, shape, dtype, 0, ini.value⟩

/-- Modelled from the spec: executing the program on `CPUPlace` runs the
initializer and fetching a constant-initialized 2-D parameter yields its
shape-sized array of the constant; the executor is not part of this
excerpt. -/
def executor_run_fetch (p : Parameter) : List (List ℚ) :=
  List.replicate (p.shape.getD 0 0)
    (List.replicate (p.shape.getD 1 0) p.initVal)

/-- Modelled from the spec: `io.get_parameter_value_by_name` looks the
parameter up by name and returns its executed value; `io.py` is not part
of this excerpt. -/
def get_parameter_value_by_name (nm : String) (p : Parameter) :
    Option (List (List ℚ)) :=
  if p.name = nm then some (executor_run_fetch p) else none

end Paddle

namespace Paddle

theorem getD_cons_succ_q (a : ℚ) (t : List ℚ) (k : ℕ) (d : ℚ) :
    (a :: t).getD (k + 1) d = t.getD k d := rfl

theorem getD_cons_zero_q (a : ℚ) (t : List ℚ) (d : ℚ) :
    (a :: t).getD 0 d = a := rfl

theorem getD_mem_q (t : List ℚ) (k : ℕ) (hk : k < t.length) :
    t.getD k 0 ∈ t := by
  induction t generalizing k with
  | nil => simp at hk
  | cons a r ih =>
    cases k with
    | zero => simp [getD_cons_zero_q]
    | succ k' =>
      rw [getD_cons_succ_q]
      exact List.mem_cons_of_mem a (ih k' (by simpa using hk))

theorem getLastD_congr_q (l : List ℚ) (d₁ d₂ : ℚ) (h : l ≠ []) :
    l.getLastD d₁ = l.getLastD d₂ := by
  cases l with
  | nil => exact absurd rfl h
  | cons a t => simp only [List.getLastD_cons]

theorem firstIdx_le_length (s : ℚ) (b : List ℚ) :
    firstIdx s b ≤ b.length := by
  induction b with
  | nil => simp [firstIdx]
  | cons a t ih =>
    by_cases h : s < a
    · simp [firstIdx, h]
    · simp only [firstIdx, if_neg h, List.length_cons]
      omega

theorem piecewise_decay_eq_getD (s : ℚ) (b v : List ℚ)
    (hlen : v.length = b.length + 1) :
    piecewise_decay s b v = v.getD (firstIdx s b) 0 := by
  induction b generalizing v with
  | nil =>
    rcases List.length_eq_one.mp (by simpa using hlen) with ⟨a, rfl⟩
    simp [piecewise_decay, switch_select, firstIdx]
  | cons bb bt ih =>
    cases v with
    | nil => simp at hlen
    | cons vv vt =>
      have hvt : vt.length = bt.length + 1 := by simpa using hlen
      have hvtne : vt ≠ [] := by
        intro h
        rw [h] at hvt
        simp at hvt
      by_cases hcase : s < bb
      · calc piecewise_decay s (bb :: bt) (vv :: vt)
            = switch_select s ((bb, vv) :: bt.zip vt)
                ((vv :: vt).getLastD 0) := by
              rw [piecewise_decay, List.zip_cons_cons]
          _ = vv := by
              simp only [switch_select, if_pos hcase]
          _ = (vv :: vt).getD (firstIdx s (bb :: bt)) 0 := by
              simp [firstIdx, hcase, getD_cons_zero_q]
      · have hlast : (vv :: vt).getLastD 0 = vt.getLastD 0 := by
          rw [List.getLastD_cons]
          exact getLastD_congr_q vt vv 0 hvtne
        calc piecewise_decay s (bb :: bt) (vv :: vt)
            = switch_select s ((bb, vv) :: bt.zip vt)
                ((vv :: vt).getLastD 0) := by
              rw [piecewise_decay, List.zip_cons_cons]
          _ = switch_select s (bt.zip vt) ((vv :: vt).getLastD 0) := by
              simp only [switch_select, if_neg hcase]
          _ = switch_select s (bt.zip vt) (vt.getLastD 0) := by rw [hlast]
          _ = piecewise_decay s bt vt := rfl
          _ = vt.getD (firstIdx s bt) 0 := ih vt hvt
          _ = (vv :: vt).getD (firstIdx s (bb :: bt)) 0 := by
              simp [firstIdx, hcase, getD_cons_succ_q]

theorem firstIdx_eq_of_first_hit (s : ℚ) (b : List ℚ) (i : ℕ)
    (hi : i < b.length) (hbefore : ∀ j, j < i → ¬ s < b.getD j 0)
    (hat : s < b.getD i 0) : firstIdx s b = i := by
  induction b generalizing i with
  | nil => simp at hi
  | cons a t ih =>
    cases i with
    | zero =>
      rw [getD_cons_zero_q] at hat
      simp [firstIdx, hat]
    | succ i' =>
      have h0 : ¬ s < a := by
        have := hbefore 0 (Nat.succ_pos i')
        rwa [getD_cons_zero_q] at this
      have hrec : firstIdx s t = i' := by
        refine ih i' (by simpa using hi) ?_ ?_
        · intro j hj
          have := hbefore (j + 1) (by omega)
          rwa [getD_cons_succ_q] at this
        · rwa [getD_cons_succ_q] at hat
      simp [firstIdx, h0, hrec]

theorem firstIdx_eq_length_of_no_hit (s : ℚ) (b : List ℚ)
    (hall : ∀ j, j < b.length → ¬ s < b.getD j 0) :
    firstIdx s b = b.length := by
  induction b with
  | nil => simp [firstIdx]
  | cons a t ih =>
    have h0 : ¬ s < a := by
      have := hall 0 (by simp)
      rwa [getD_cons_zero_q] at this
    have hrec : firstIdx s t = t.length := by
      refine ih ?_
      intro j hj
      have := hall (j + 1) (by simpa using hj)
      rwa [getD_cons_succ_q] at this
    simp [firstIdx, h0, hrec]

theorem pairwise_getD_lt (b : List ℚ) (hsort : List.Pairwise (· < ·) b) :
    ∀ j k, j < k → k < b.length → b.getD j 0 < b.getD k 0 := by
  induction b with
  | nil =>
    intro j k _ hk
    simp at hk
  | cons a t ih =>
    intro j k hjk hk
    rcases List.pairwise_cons.mp hsort with ⟨ha, ht⟩
    cases j with
    | zero =>
      cases k with
      | zero => omega
      | succ k' =>
        rw [getD_cons_zero_q, getD_cons_succ_q]
        exact ha _ (getD_mem_q t k' (by simpa using hk))
    | succ j' =>
      cases k with
      | zero => omega
      | succ k' =>
        rw [getD_cons_succ_q, getD_cons_succ_q]
        exact ih ht j' k' (by omega) (by simpa using hk)

theorem pairwise_getD_le (b : List ℚ) (hsort : List.Pairwise (· < ·) b)
    (j k : ℕ) (hjk : j ≤ k) (hk : k < b.length) :
    b.getD j 0 ≤ b.getD k 0 := by
  rcases Nat.lt_or_ge j k with h | h
  · exact (pairwise_getD_lt b hsort j k h hk).le
  · have : j = k := le_antisymm hjk h
    rw [this]

/-- C1: with `staircase=False`, `exponential_decay` on a `Variable` step
returns `learning_rate * decay_rate ^ (global_step / decay_steps)`. -/
theorem exponential_decay_no_staircase_formula
    (lr s n r : ℝ) :
    exponential_decay_checked lr (.var s) n r false = .ok (lr * r ^ (s / n)) :=
  rfl

/-- C3: for each of `exponential_decay`, `natural_exp_decay` and
`inverse_time_decay`, the `staircase=True` result is the `staircase=False`
body with the quotient `global_step / decay_steps` replaced by its floor,
while the `staircase=False` result is that body at the quotient itself. -/
theorem staircase_floors_exponent (lr s n r : ℝ) :
    (exponential_decay lr s n r true =
        exponential_decay_body lr r ((⌊s / n⌋ : ℤ) : ℝ) ∧
      exponential_decay lr s n r false = exponential_decay_body lr r (s / n)) ∧
    (natural_exp_decay lr s n r true =
        natural_exp_decay_body lr r ((⌊s / n⌋ : ℤ) : ℝ) ∧
      natural_exp_decay lr s n r false = natural_exp_decay_body lr r (s / n)) ∧
    (inverse_time_decay lr s n r true =
        inverse_time_decay_body lr r ((⌊s / n⌋ : ℤ) : ℝ) ∧
      inverse_time_decay lr s n r false =
        inverse_time_decay_body lr r (s / n)) :=
  ⟨⟨rfl, rfl⟩, ⟨rfl, rfl⟩, ⟨rfl, rfl⟩⟩

/-- C5: `polynomial_decay` computes exactly the spec's polynomial decay
formula: with `cycle=False` the step used is `min global_step decay_steps`;
with `cycle=True` the divisor is `decay_steps * ⌈global_step / decay_steps⌉`
(at `global_step = 0` the code's guard sets the multiplier to `1`, and the
computed value `learning_rate` coincides with the formula's value there). -/
theorem polynomial_decay_matches_formula (lr s n e p : ℝ) (cycle : Bool) :
    polynomial_decay lr s n e p cycle =
      polynomial_decay_spec_formula lr s n e p cycle := by
  cases cycle with
  | false => rfl
  | true =>
    by_cases hs : s = 0
    · subst hs
      simp [polynomial_decay, polynomial_decay_spec_formula,
        polynomial_decay_div_res]
    · simp [polynomial_decay, polynomial_decay_spec_formula,
        polynomial_decay_div_res, hs]

/-- C9: in `polynomial_decay` with `cycle=True` at step 0, the ceiling
multiplier would be 0, the switch replaces it by 1, the divisor
`decay_steps * div_res` stays nonzero, and the result is `learning_rate`. -/
theorem polynomial_decay_cycle_step_zero (lr n e p : ℝ) (hn : n ≠ 0) :
    ((⌈(0 : ℝ) / n⌉ : ℤ) : ℝ) = 0 ∧
    polynomial_decay_div_res 0 n = 1 ∧
    n * polynomial_decay_div_res 0 n ≠ 0 ∧
    polynomial_decay lr 0 n e p true = lr := by
  refine ⟨by simp, by simp [polynomial_decay_div_res], by
    simp [polynomial_decay_div_res, hn], ?_⟩
  simp [polynomial_decay, polynomial_decay_div_res]

/-- Witness for the step-zero cycle guard at `lr = 2`, `n = 3`, `e = 1/2`,
`p = 5`. -/
theorem polynomial_decay_cycle_step_zero_witness :
    (3 : ℝ) ≠ 0 ∧
      (((⌈(0 : ℝ) / 3⌉ : ℤ) : ℝ) = 0 ∧
        polynomial_decay_div_res 0 3 = 1 ∧
        (3 : ℝ) * polynomial_decay_div_res 0 3 ≠ 0 ∧
        polynomial_decay 2 0 3 (1 / 2) 5 true = 2) :=
  ⟨by norm_num, polynomial_decay_cycle_step_zero 2 3 (1 / 2) 5 (by norm_num)⟩

/-- C6: under `decay_steps > 0`, `global_step ≥ 0` and `decay_rate ≥ 0`,
every division performed by the four continuous decay functions has a
nonzero divisor, for either value of the `staircase` and `cycle` flags. -/
theorem decay_divisors_nonzero (s n r : ℝ) (staircase cycle : Bool)
    (hn : 0 < n) (hs : 0 ≤ s) (hr : 0 ≤ r) :
    (∀ d ∈ exponential_decay_divisors n, d ≠ 0) ∧
    (∀ d ∈ natural_exp_decay_divisors n, d ≠ 0) ∧
    (∀ d ∈ inverse_time_decay_divisors s n r staircase, d ≠ 0) ∧
    (∀ d ∈ polynomial_decay_divisors s n cycle, d ≠ 0) := by
  have hdiv : (0 : ℝ) ≤ s / n := div_nonneg hs hn.le
  have hq : (0 : ℝ) ≤
      (if staircase then ((⌊s / n⌋ : ℤ) : ℝ) else s / n) := by
    cases staircase with
    | false => simpa using hdiv
    | true =>
      simp only [if_true]
      exact_mod_cast Int.floor_nonneg.mpr hdiv
  have hinv : 1 + r * (if staircase then ((⌊s / n⌋ : ℤ) : ℝ) else s / n) ≠ 0 := by
    have hrq : 0 ≤ r * (if staircase then ((⌊s / n⌋ : ℤ) : ℝ) else s / n) :=
      mul_nonneg hr hq
    have : (0 : ℝ) <
        1 + r * (if staircase then ((⌊s / n⌋ : ℤ) : ℝ) else s / n) := by
      linarith
    exact this.ne'
  have hpoly : n * polynomial_decay_div_res s n ≠ 0 := by
    by_cases h0 : s = 0
    · simp [polynomial_decay_div_res, h0, hn.ne']
    · have hspos : 0 < s := lt_of_le_of_ne hs (Ne.symm h0)
      have hqpos : (0 : ℝ) < s / n := div_pos hspos hn
      have hc : (0 : ℤ) < ⌈s / n⌉ := Int.ceil_pos.mpr hqpos
      have hcr : (0 : ℝ) < ((⌈s / n⌉ : ℤ) : ℝ) := by exact_mod_cast hc
      have hdr : polynomial_decay_div_res s n = ((⌈s / n⌉ : ℤ) : ℝ) := by
        simp [polynomial_decay_div_res, h0]
      rw [hdr]
      exact mul_ne_zero hn.ne' hcr.ne'
  refine ⟨?_, ?_, ?_, ?_⟩
  · intro d hd
    simp only [exponential_decay_divisors, List.mem_singleton] at hd
    exact hd ▸ hn.ne'
  · intro d hd
    simp only [natural_exp_decay_divisors, List.mem_singleton] at hd
    exact hd ▸ hn.ne'
  · intro d hd
    simp only [inverse_time_decay_divisors, List.mem_cons,
      List.mem_singleton] at hd
    rcases hd with hd | hd | hd
    · exact hd ▸ hn.ne'
    · exact hd ▸ hinv
    · exact absurd hd (List.not_mem_nil d)
  · intro d hd
    cases cycle with
    | false =>
      simp only [polynomial_decay_divisors, Bool.false_eq_true, if_false,
        List.mem_singleton] at hd
      exact hd ▸ hn.ne'
    | true =>
      simp only [polynomial_decay_divisors, if_true, List.mem_cons,
        List.mem_singleton] at hd
      rcases hd with hd | hd | hd
      · exact hd ▸ hn.ne'
      · exact hd ▸ hpoly
      · exact absurd hd (List.not_mem_nil d)

/-- C2: with strictly increasing boundaries and
`len(values) = len(boundaries) + 1`, `piecewise_decay` returns `values[0]`
below the first boundary, `values[i]` on `[boundaries[i-1], boundaries[i])`,
and the last value from the last boundary on. -/
theorem piecewise_decay_interval (s : ℚ) (b v : List ℚ)
    (hlen : v.length = b.length + 1)
    (hsort : List.Pairwise (· < ·) b) :
    (0 < b.length → s < b.getD 0 0 → piecewise_decay s b v = v.getD 0 0) ∧
    (∀ i, 1 ≤ i → i < b.length → b.getD (i - 1) 0 ≤ s → s < b.getD i 0 →
      piecewise_decay s b v = v.getD i 0) ∧
    (0 < b.length → b.getD (b.length - 1) 0 ≤ s →
      piecewise_decay s b v = v.getD b.length 0) := by
  have hpw := piecewise_decay_eq_getD s b v hlen
  refine ⟨?_, ?_, ?_⟩
  · intro h0 hlt
    rw [hpw, firstIdx_eq_of_first_hit s b 0 h0
      (fun j hj => absurd hj (Nat.not_lt_zero j)) hlt]
  · intro i h1 hi hle hlt
    have hbefore : ∀ j, j < i → ¬ s < b.getD j 0 := by
      intro j hj
      have hmono : b.getD j 0 ≤ b.getD (i - 1) 0 :=
        pairwise_getD_le b hsort j (i - 1) (by omega) (by omega)
      exact not_lt.mpr (le_trans hmono hle)
    rw [hpw, firstIdx_eq_of_first_hit s b i hi hbefore hlt]
  · intro h0 hge
    have hall : ∀ j, j < b.length → ¬ s < b.getD j 0 := by
      intro j hj
      have hmono : b.getD j 0 ≤ b.getD (b.length - 1) 0 :=
        pairwise_getD_le b hsort j (b.length - 1) (by omega) (by omega)
      exact not_lt.mpr (le_trans hmono hge)
    rw [hpw, firstIdx_eq_length_of_no_hit s b hall]

/-- Witness for the piecewise interval theorem at the docstring's example
`boundaries = [10000, 20000]`, `values = [1, 1/2, 1/10]`, step 15000. -/
theorem piecewise_decay_interval_witness :
    (([(1 : ℚ), 1 / 2, 1 / 10].length = [(10000 : ℚ), 20000].length + 1) ∧
        List.Pairwise (· < ·) [(10000 : ℚ), 20000]) ∧
      ((0 < [(10000 : ℚ), 20000].length →
          (15000 : ℚ) < [(10000 : ℚ), 20000].getD 0 0 →
          piecewise_decay 15000 [10000, 20000] [1, 1 / 2, 1 / 10] =
            [(1 : ℚ), 1 / 2, 1 / 10].getD 0 0) ∧
        (∀ i, 1 ≤ i → i < [(10000 : ℚ), 20000].length →
          [(10000 : ℚ), 20000].getD (i - 1) 0 ≤ 15000 →
          (15000 : ℚ) < [(10000 : ℚ), 20000].getD i 0 →
          piecewise_decay 15000 [10000, 20000] [1, 1 / 2, 1 / 10] =
            [(1 : ℚ), 1 / 2, 1 / 10].getD i 0) ∧
        (0 < [(10000 : ℚ), 20000].length →
          [(10000 : ℚ), 20000].getD ([(10000 : ℚ), 20000].length - 1) 0 ≤
            15000 →
          piecewise_decay 15000 [10000, 20000] [1, 1 / 2, 1 / 10] =
            [(1 : ℚ), 1 / 2, 1 / 10].getD [(10000 : ℚ), 20000].length 0)) :=
  ⟨⟨by simp, by norm_num [List.pairwise_cons]⟩,
    piecewise_decay_interval 15000 [10000, 20000] [1, 1 / 2, 1 / 10]
      (by simp) (by norm_num [List.pairwise_cons])⟩

/-- C10: for any boundary order, a valid `piecewise_decay` call executes
exactly one switch branch, the one at `firstIdx`, so the returned variable
ends up holding an element of `values` on every execution path. -/
theorem piecewise_decay_always_assigned (s : ℚ) (b v : List ℚ)
    (hlen : v.length = b.length + 1) :
    piecewise_decay s b v = v.getD (firstIdx s b) 0 ∧
    firstIdx s b < v.length ∧
    piecewise_decay s b v ∈ v := by
  have h1 := piecewise_decay_eq_getD s b v hlen
  have h2 : firstIdx s b < v.length := by
    have := firstIdx_le_length s b
    omega
  exact ⟨h1, h2, h1 ▸ getD_mem_q v (firstIdx s b) h2⟩

/-- Witness for the always-assigned theorem with boundaries deliberately
out of order. -/
theorem piecewise_decay_always_assigned_witness :
    ([(1 : ℚ), 1 / 2, 1 / 10].length = [(20000 : ℚ), 10000].length + 1) ∧
      (piecewise_decay 15000 [20000, 10000] [1, 1 / 2, 1 / 10] =
          [(1 : ℚ), 1 / 2, 1 / 10].getD
            (firstIdx 15000 [(20000 : ℚ), 10000]) 0 ∧
        firstIdx 15000 [(20000 : ℚ), 10000] <
          [(1 : ℚ), 1 / 2, 1 / 10].length ∧
        piecewise_decay 15000 [20000, 10000] [1, 1 / 2, 1 / 10] ∈
          [(1 : ℚ), 1 / 2, 1 / 10]) :=
  ⟨by simp,
    piecewise_decay_always_assigned 15000 [20000, 10000] [1, 1 / 2, 1 / 10]
      (by simp)⟩

/-- C4: each decay function raises `ValueError` exactly when its
`global_step` argument is not a `Variable`; `piecewise_decay` additionally
raises exactly when `len(values) - len(boundaries) ≠ 1`; nothing else makes
any of them raise. -/
theorem decay_validation (lr n r e p : ℝ) (st cy : Bool)
    (gsR : StepArg ℝ) (gsQ : StepArg ℚ) (b v : List ℚ) :
    (isValueError (exponential_decay_checked lr gsR n r st) = true ↔
      gsR = StepArg.notVar) ∧
    (isValueError (natural_exp_decay_checked lr gsR n r st) = true ↔
      gsR = StepArg.notVar) ∧
    (isValueError (inverse_time_decay_checked lr gsR n r st) = true ↔
      gsR = StepArg.notVar) ∧
    (isValueError (polynomial_decay_checked lr gsR n e p cy) = true ↔
      gsR = StepArg.notVar) ∧
    (isValueError (piecewise_decay_checked gsQ b v) = true ↔
      (gsQ = StepArg.notVar ∨ (v.length : ℤ) - b.length ≠ 1)) := by
  refine ⟨?_, ?_, ?_, ?_, ?_⟩
  · cases gsR <;>
      simp [exponential_decay_checked, isValueError]
  · cases gsR <;>
      simp [natural_exp_decay_checked, isValueError]
  · cases gsR <;>
      simp [inverse_time_decay_checked, isValueError]
  · cases gsR <;>
      simp [polynomial_decay_checked, isValueError]
  · by_cases hl : (v.length : ℤ) - b.length ≠ 1
    · cases gsQ <;>
        simp [piecewise_decay_checked, isValueError, hl]
    · cases gsQ <;>
        simp [piecewise_decay_checked, isValueError, hl]

/-- Witness for the nonzero-divisor theorem at `s = 3`, `n = 2`, `r = 1`,
with both flags set. -/
theorem decay_divisors_nonzero_witness :
    ((0 : ℝ) < 2 ∧ (0 : ℝ) ≤ 3 ∧ (0 : ℝ) ≤ 1) ∧
      ((∀ d ∈ exponential_decay_divisors 2, d ≠ 0) ∧
        (∀ d ∈ natural_exp_decay_divisors 2, d ≠ 0) ∧
        (∀ d ∈ inverse_time_decay_divisors 3 2 1 true, d ≠ 0) ∧
        (∀ d ∈ polynomial_decay_divisors 3 2 true, d ≠ 0)) :=
  ⟨⟨by norm_num, by norm_num, by norm_num⟩,
    decay_divisors_nonzero 3 2 1 true true (by norm_num) (by norm_num)
      (by norm_num)⟩

theorem tmpRun_succ (id k : ℕ) :
    tmpRun id (k + 1) = ⟨VarName.auto id, false⟩ :: tmpRun (id + 1) k := rfl

theorem tmpRun_add (id a c : ℕ) :
    tmpRun id (a + c) = tmpRun id a ++ tmpRun (id + a) c := by
  induction a generalizing id with
  | zero => simp [tmpRun]
  | succ a ih =>
    have h1 : a + 1 + c = a + c + 1 := by omega
    have h2 : id + 1 + a = id + (a + 1) := by omega
    rw [h1, tmpRun_succ id (a + c), ih (id + 1), tmpRun_succ id a, h2]
    rfl

theorem tmpRun_filter (id k : ℕ) :
    (tmpRun id k).filter (fun x => x.persistable) = [] := by
  induction k generalizing id with
  | zero => rfl
  | succ k ih => simp [tmpRun, ih]

theorem exponential_decay_build_vars (st : Bool) (g : GraphState) :
    (exponential_decay_build st g).1.vars =
      g.vars ++ exponential_decay_newvars st g.nextId := by
  cases st <;>
    simp [exponential_decay_build, emitTmp, exponential_decay_newvars, tmpRun]

theorem exponential_decay_build_ret (st : Bool) (g : GraphState) :
    (exponential_decay_build st g).2 =
      VarName.auto (g.nextId + (if st then 3 else 2)) := by
  cases st <;>
    simp [exponential_decay_build, emitTmp, VarName.auto.injEq]

theorem natural_exp_decay_build_vars (st : Bool) (g : GraphState) :
    (natural_exp_decay_build st g).1.vars =
      g.vars ++ natural_exp_decay_newvars st g.nextId := by
  cases st <;>
    simp [natural_exp_decay_build, emitTmp, natural_exp_decay_newvars, tmpRun]

theorem natural_exp_decay_build_ret (st : Bool) (g : GraphState) :
    (natural_exp_decay_build st g).2 =
      VarName.auto (g.nextId + (if st then 4 else 3)) := by
  cases st <;>
    simp [natural_exp_decay_build, emitTmp, VarName.auto.injEq]

theorem inverse_time_decay_build_vars (st : Bool) (g : GraphState) :
    (inverse_time_decay_build st g).1.vars =
      g.vars ++ inverse_time_decay_newvars st g.nextId := by
  cases st <;>
    simp [inverse_time_decay_build, emitTmp, inverse_time_decay_newvars,
      tmpRun]

theorem inverse_time_decay_build_ret (st : Bool) (g : GraphState) :
    (inverse_time_decay_build st g).2 =
      VarName.auto (g.nextId + (if st then 4 else 3)) := by
  cases st <;>
    simp [inverse_time_decay_build, emitTmp, VarName.auto.injEq]

theorem polynomial_decay_build_vars (cy : Bool) (g : GraphState) :
    (polynomial_decay_build cy g).1.vars =
      g.vars ++ polynomial_decay_newvars cy g.nextId := by
  cases cy <;>
    simp [polynomial_decay_build, emitTmp, polynomial_decay_newvars, tmpRun]

theorem polynomial_decay_build_ret (cy : Bool) (g : GraphState) :
    (polynomial_decay_build cy g).2 =
      VarName.auto (g.nextId + (if cy then 10 else 6)) := by
  cases cy <;>
    simp [polynomial_decay_build, emitTmp, VarName.auto.injEq]

theorem piecewise_cases_build_spec (k : ℕ) (g : GraphState) :
    (piecewise_cases_build k g).vars = g.vars ++ tmpRun g.nextId (3 * k) ∧
    (piecewise_cases_build k g).nextId = g.nextId + 3 * k := by
  induction k generalizing g with
  | zero => simp [piecewise_cases_build, tmpRun]
  | succ k ih =>
    have step : piecewise_cases_build (k + 1) g =
        piecewise_cases_build k
          ⟨g.nextId + 1 + 1 + 1,
            ((g.vars ++ [⟨VarName.auto g.nextId, false⟩]) ++
                [⟨VarName.auto (g.nextId + 1), false⟩]) ++
              [⟨VarName.auto (g.nextId + 1 + 1), false⟩]⟩ := rfl
    obtain ⟨ihv, ihn⟩ := ih
      ⟨g.nextId + 1 + 1 + 1,
        ((g.vars ++ [⟨VarName.auto g.nextId, false⟩]) ++
            [⟨VarName.auto (g.nextId + 1), false⟩]) ++
          [⟨VarName.auto (g.nextId + 1 + 1), false⟩]⟩
    constructor
    · rw [step, ihv]
      have hc : 3 * (k + 1) = 3 + 3 * k := by ring
      have hid : g.nextId + 1 + 1 + 1 = g.nextId + 3 := by omega
      rw [hc, tmpRun_add g.nextId 3 (3 * k)]
      simp [hid, tmpRun, List.append_assoc]
    · rw [step, ihn]
      show g.nextId + 1 + 1 + 1 + 3 * k = g.nextId + 3 * (k + 1)
      omega

theorem piecewise_decay_build_vars (nb : ℕ) (g : GraphState) :
    (piecewise_decay_build nb g).1.vars =
      g.vars ++ piecewise_decay_newvars nb g.nextId := by
  obtain ⟨hv, hn⟩ := piecewise_cases_build_spec nb
    ⟨g.nextId, g.vars ++ [⟨VarName.named "learning_rate", true⟩]⟩
  show (piecewise_cases_build nb
      ⟨g.nextId, g.vars ++ [⟨VarName.named "learning_rate", true⟩]⟩).vars ++
      [⟨VarName.auto (piecewise_cases_build nb
        ⟨g.nextId,
          g.vars ++ [⟨VarName.named "learning_rate", true⟩]⟩).nextId,
        false⟩] =
    g.vars ++ piecewise_decay_newvars nb g.nextId
  rw [hv, hn]
  have hadd : tmpRun g.nextId (3 * nb + 1) =
      tmpRun g.nextId (3 * nb) ++ tmpRun (g.nextId + 3 * nb) 1 :=
    tmpRun_add g.nextId (3 * nb) 1
  have hone : tmpRun (g.nextId + 3 * nb) 1 =
      [⟨VarName.auto (g.nextId + 3 * nb), false⟩] := rfl
  simp [piecewise_decay_newvars, hadd, hone, List.append_assoc]

theorem piecewise_decay_build_ret (nb : ℕ) (g : GraphState) :
    (piecewise_decay_build nb g).2 = VarName.named "learning_rate" := rfl

/-- C7: each decay builder only appends to the graph: the variables after
a call are the prior ones followed by exactly what the same call emits on a
pristine graph with the same name counter, none of those is persistable
except the single `learning_rate` variable `piecewise_decay` creates and
returns, and the returned variable never depends on pre-existing graph
contents. -/
theorem decay_builders_stateless (g : GraphState) (staircase cycle : Bool)
    (nb : ℕ) :
    ((exponential_decay_build staircase g).1.vars =
        g.vars ++
          (exponential_decay_build staircase
            (GraphState.mk g.nextId [])).1.vars ∧
      ((exponential_decay_build staircase
          (GraphState.mk g.nextId [])).1.vars).filter
          (fun x => x.persistable) = [] ∧
      (exponential_decay_build staircase g).2 =
        (exponential_decay_build staircase (GraphState.mk g.nextId [])).2) ∧
    ((natural_exp_decay_build staircase g).1.vars =
        g.vars ++
          (natural_exp_decay_build staircase
            (GraphState.mk g.nextId [])).1.vars ∧
      ((natural_exp_decay_build staircase
          (GraphState.mk g.nextId [])).1.vars).filter
          (fun x => x.persistable) = [] ∧
      (natural_exp_decay_build staircase g).2 =
        (natural_exp_decay_build staircase (GraphState.mk g.nextId [])).2) ∧
    ((inverse_time_decay_build staircase g).1.vars =
        g.vars ++
          (inverse_time_decay_build staircase
            (GraphState.mk g.nextId [])).1.vars ∧
      ((inverse_time_decay_build staircase
          (GraphState.mk g.nextId [])).1.vars).filter
          (fun x => x.persistable) = [] ∧
      (inverse_time_decay_build staircase g).2 =
        (inverse_time_decay_build staircase (GraphState.mk g.nextId [])).2) ∧
    ((polynomial_decay_build cycle g).1.vars =
        g.vars ++
          (polynomial_decay_build cycle (GraphState.mk g.nextId [])).1.vars ∧
      ((polynomial_decay_build cycle
          (GraphState.mk g.nextId [])).1.vars).filter
          (fun x => x.persistable) = [] ∧
      (polynomial_decay_build cycle g).2 =
        (polynomial_decay_build cycle (GraphState.mk g.nextId [])).2) ∧
    ((piecewise_decay_build nb g).1.vars =
        g.vars ++
          (piecewise_decay_build nb (GraphState.mk g.nextId [])).1.vars ∧
      ((piecewise_decay_build nb (GraphState.mk g.nextId [])).1.vars).filter
          (fun x => x.persistable) =
        [⟨VarName.named "learning_rate", true⟩] ∧
      (piecewise_decay_build nb g).2 = VarName.named "learning_rate" ∧
      (piecewise_decay_build nb g).2 =
        (piecewise_decay_build nb (GraphState.mk g.nextId [])).2) := by
  refine ⟨⟨?_, ?_, ?_⟩, ⟨?_, ?_, ?_⟩, ⟨?_, ?_, ?_⟩, ⟨?_, ?_, ?_⟩,
    ⟨?_, ?_, ?_, ?_⟩⟩
  · rw [exponential_decay_build_vars staircase g,
      exponential_decay_build_vars staircase (GraphState.mk g.nextId [])]
    simp
  · rw [exponential_decay_build_vars]
    simp [exponential_decay_newvars, tmpRun_filter]
  · rw [exponential_decay_build_ret, exponential_decay_build_ret]
  · rw [natural_exp_decay_build_vars staircase g,
      natural_exp_decay_build_vars staircase (GraphState.mk g.nextId [])]
    simp
  · rw [natural_exp_decay_build_vars]
    simp [natural_exp_decay_newvars, tmpRun_filter]
  · rw [natural_exp_decay_build_ret, natural_exp_decay_build_ret]
  · rw [inverse_time_decay_build_vars staircase g,
      inverse_time_decay_build_vars staircase (GraphState.mk g.nextId [])]
    simp
  · rw [inverse_time_decay_build_vars]
    simp [inverse_time_decay_newvars, tmpRun_filter]
  · rw [inverse_time_decay_build_ret, inverse_time_decay_build_ret]
  · rw [polynomial_decay_build_vars cycle g,
      polynomial_decay_build_vars cycle (GraphState.mk g.nextId [])]
    simp
  · rw [polynomial_decay_build_vars]
    simp [polynomial_decay_newvars, tmpRun_filter]
  · rw [polynomial_decay_build_ret, polynomial_decay_build_ret]
  · rw [piecewise_decay_build_vars nb g,
      piecewise_decay_build_vars nb (GraphState.mk g.nextId [])]
    simp
  · rw [piecewise_decay_build_vars]
    simp [piecewise_decay_newvars, tmpRun_filter]
  · exact piecewise_decay_build_ret nb g
  · rw [piecewise_decay_build_ret, piecewise_decay_build_ret]

/-- C8: creating the parameter `fc.w` of shape `[784, 100]`, dtype FP32
and `ConstantInitializer(1.0625)` in the global block yields a non-None
parameter with that name, shape, dtype and block index 0, and both
executing the program and reading it back via
`get_parameter_value_by_name` produce a 784 by 100 array every entry of
which is 1.0625 (= 17/16). -/
theorem test_param_spec :
    ∃ p, create_parameter "fc.w" [784, 100] VarType.FP32 ⟨17 / 16⟩ = some p ∧
      p.name = "fc.w" ∧
      p.shape = [784, 100] ∧
      p.dtype = VarType.FP32 ∧
      p.blockIdx = 0 ∧
      executor_run_fetch p =
        List.replicate 784 (List.replicate 100 (17 / 16)) ∧
      get_parameter_value_by_name "fc.w" p =
        some (List.replicate 784 (List.replicate 100 (17 / 16))) :=
  ⟨⟨"fc.w", [784, 100], VarType.FP32, 0, 17 / 16⟩, rfl, rfl, rfl, rfl, rfl,
    rfl, by rw [get_parameter_value_by_name, if_pos rfl]; rfl⟩

end Paddle
